import Mathlib

/-!
Verification of the resilient orchestration core of the startup-sentiment
analysis service (TypeScript sources under src/).  Each service is embedded
shallowly: JS `Map`s become association lists, `Date.now()` timestamps and
JS floating-point numbers become rationals threaded explicitly, promise
rejection becomes `Except`/`Option`, and the ambient provider responses are
passed in as explicit outcome parameters.
-/

/-! ## Association-list model of the JS `Map` used by the services.
`Map.get` returns the first binding, `Map.set` overwrites in place keeping
the insertion position (appending when absent), `Map.delete` removes the
binding.  JS maps never hold duplicate keys, so first-binding semantics
agrees with the source. -/

def mapGet {α : Type} : List (String × α) → String → Option α
  | [], _ => none
  | (k0, v) :: rest, k => if k0 = k then some v else mapGet rest k

def mapSet {α : Type} : List (String × α) → String → α → List (String × α)
  | [], k, v => [(k, v)]
  | (k0, v0) :: rest, k, v => if k0 = k then (k, v) :: rest else (k0, v0) :: mapSet rest k v

def mapDelete {α : Type} : List (String × α) → String → List (String × α)
  | [], _ => []
  | (k0, v0) :: rest, k => if k0 = k then rest else (k0, v0) :: mapDelete rest k

/-! ## SimpleCache (src/services/cache.ts, src/unnamed/part_010)

`SimpleCache` stores `value` together with an absolute `expiry` timestamp.
Timestamps, ttls and the `defaultTTL` field (milliseconds) are modelled as
rationals, which is exact for the JS float arithmetic involved
(`defaultTTL / 1000 * 1000` recovers `defaultTTL` exactly in floats for the
integral millisecond values the constructor stores).  `Date.now()` is
threaded as an explicit `now` argument. -/

structure CacheItem (T : Type) where
  value : T
  expiry : ℚ
deriving DecidableEq

structure SimpleCache (T : Type) where
  cache : List (String × CacheItem T)
  defaultTTL : ℚ
deriving DecidableEq

/-- Constructor `new SimpleCache(defaultTTLSeconds = 300)`:
`this.defaultTTL = defaultTTLSeconds * 1000`. -/
def mkSimpleCache (T : Type) (defaultTTLSeconds : ℚ) : SimpleCache T :=
  ⟨[], defaultTTLSeconds * 1000⟩

/-- Models `set(key, value, ttlSeconds?)`:
`const ttl = (ttlSeconds || this.defaultTTL / 1000) * 1000` — a missing
argument and the falsy value `0` both select the instance default — then
`this.cache.set(key, ⟨value, Date.now() + ttl⟩)`. -/
def SimpleCache.set {T : Type} (c : SimpleCache T) (now : ℚ) (key : String) (value : T)
    (ttlSeconds : Option ℚ) : SimpleCache T :=
  let ttl : ℚ := (match ttlSeconds with
    | some s => if s = 0 then c.defaultTTL / 1000 else s
    | none => c.defaultTTL / 1000) * 1000
  ⟨mapSet c.cache key ⟨value, now + ttl⟩, c.defaultTTL⟩

/-- Models `get(key)`: absent key yields `null`; an entry with
`Date.now() > item.expiry` is deleted (lazy eviction) and yields `null`;
otherwise the stored value is returned.  Returns the read result together
with the possibly-evicted cache state. -/
def SimpleCache.get {T : Type} (c : SimpleCache T) (now : ℚ) (key : String) :
    Option T × SimpleCache T :=
  match mapGet c.cache key with
  | none => (none, c)
  | some item =>
    if now > item.expiry then (none, ⟨mapDelete c.cache key, c.defaultTTL⟩)
    else (some item.value, c)

/-! ## getOptimalBatchSize (src/tools/sentiment-batch.ts and the 5–25 variant
in src/unnamed/part_006)

`avgTextLength` is the rational mean of the character lengths;
`tokensPerText = Math.ceil(avg / 4)`; the candidate size is
`Math.floor(10000 / tokensPerText)`.  When every text is empty,
`tokensPerText` is `0` and the JS float division yields `Infinity`, which the
clamp `Math.max(lo, Math.min(hi, _))` maps to `hi`; the `tpt = 0` branch
mirrors that.  (For an empty input list JS produces `NaN`; the theorems below
therefore assume a non-empty list.) -/

def avgTextLength (texts : List String) : ℚ :=
  ((texts.map String.length).sum : ℚ) / (texts.length : ℚ)

def tokensPerText (texts : List String) : ℕ :=
  (⌈avgTextLength texts / 4⌉).toNat

/-- The stricter variant used by the batch sentiment engine: clamp to [5, 10]. -/
def getOptimalBatchSize (texts : List String) : ℕ :=
  let tpt := tokensPerText texts
  if tpt = 0 then 10 else max 5 (min 10 (10000 / tpt))

/-- The primary variant (src/unnamed/part_006): clamp to [5, 25]. -/
def getOptimalBatchSize25 (texts : List String) : ℕ :=
  let tpt := tokensPerText texts
  if tpt = 0 then 25 else max 5 (min 25 (10000 / tpt))

/-! ## ModelRotator (src/services/model-rotator.ts, src/unnamed/part_009)

`recentErrors` is a JS number stepped by `+1`, `−0.5` and `−1` with a floor
at `0`, modelled exactly by rationals.  The `Map<string, ModelStats>` becomes
an association list in insertion order (the `forEach` order used by the
least-errors fallback).  `Date.now()` is threaded as `now`; the 60-second
`setInterval` decay callback becomes the explicit transition `decayTick`. -/

structure ModelStats where
  requestCount : ℕ
  lastRequestTime : ℚ
  recentErrors : ℚ
  isAvailable : Bool
deriving DecidableEq

structure ModelRotator where
  modelList : List String
  stats : List (String × ModelStats)
  currentIndex : ℕ
deriving DecidableEq

/-- Constructor: every model starts with zero counts and `isAvailable = true`. -/
def mkModelRotator (models : List String) : ModelRotator :=
  ⟨models, models.map (fun m => (m, ⟨0, 0, 0, true⟩)), 0⟩

/-- Models `recordRequest(model, success)`: bumps `requestCount` and
`lastRequestTime`; on failure increments `recentErrors` and marks the model
unavailable once the count reaches 3; on success lowers `recentErrors` by
`0.5` floored at `0` (the availability flag is not touched on success). -/
def ModelRotator.recordRequest (r : ModelRotator) (model : String) (success : Bool)
    (now : ℚ) : ModelRotator :=
  match mapGet r.stats model with
  | none => r
  | some s =>
    let s1 : ModelStats := { s with requestCount := s.requestCount + 1, lastRequestTime := now }
    let s2 : ModelStats :=
      if success then { s1 with recentErrors := max 0 (s1.recentErrors - 1/2) }
      else
        let e := s1.recentErrors + 1
        { s1 with recentErrors := e, isAvailable := if 3 ≤ e then false else s1.isAvailable }
    ⟨r.modelList, mapSet r.stats model s2, r.currentIndex⟩

/-- The 60-second interval callback: the `recentErrors` of every model drops by 1
(floored at 0) and the model is made available again once the count is 0. -/
def ModelRotator.decayTick (r : ModelRotator) : ModelRotator :=
  ⟨r.modelList,
   r.stats.map (fun p =>
     let e := max 0 (p.2.recentErrors - 1)
     (p.1, { p.2 with recentErrors := e, isAvailable := if e = 0 then true else p.2.isAvailable })),
   r.currentIndex⟩

/-- The scan phase of `getNextModel`: starting at `currentIndex`, the first
model that is available and past its 1-second cooldown is returned together
with the updated `currentIndex`. -/
def ModelRotator.findAvailable (r : ModelRotator) (now : ℚ) : Option (String × ℕ) :=
  (List.range r.modelList.length).findSome? (fun i =>
    let index := (r.currentIndex + i) % r.modelList.length
    let model := r.modelList.getD index ""
    match mapGet r.stats model with
    | none => none
    | some s =>
      if s.isAvailable ∧ now - s.lastRequestTime > 1000 then
        some (model, (index + 1) % r.modelList.length)
      else none)

/-- One step of the least-errors fold: `minErrors` starts at `Infinity`
(modelled by `none`) and is replaced on a strict decrease. -/
def bestStep (acc : String × Option ℚ) (p : String × ModelStats) : String × Option ℚ :=
  match acc.2 with
  | none => (p.1, some p.2.recentErrors)
  | some m => if p.2.recentErrors < m then (p.1, some p.2.recentErrors) else acc

/-- The fallback phase of `getNextModel`: `bestModel` starts at
`modelList[0]` with `minErrors = Infinity` and every stats entry with
strictly fewer errors replaces it. -/
def bestByErrors (init : String) (pairs : List (String × ModelStats)) : String :=
  (pairs.foldl bestStep (init, none)).1

/-- Models `getNextModel()`: the scan phase, then the least-errors fallback
(which never refuses to return a model). -/
def ModelRotator.getNextModel (r : ModelRotator) (now : ℚ) : String :=
  match r.findAvailable now with
  | some (m, _) => m
  | none => bestByErrors (r.modelList.getD 0 "") r.stats

/-- Note that `getNextModel` also advances `currentIndex` past a scan hit; the fallback
leaves it unchanged. -/
def ModelRotator.getNextModelState (r : ModelRotator) (now : ℚ) : ModelRotator :=
  match r.findAvailable now with
  | some (_, idx) => ⟨r.modelList, r.stats, idx⟩
  | none => r

/-! ## RateLimiter (src/services/rate-limiter.ts)

Only the retry/reject decision logic of `process()` carries the claims; the
outcome of each execution of the `fn` of a queue item is passed in explicitly
(`Except RLError α`).  Throttling detection `isRateLimitError` inspects the
lowercased message for rate-limit signatures or a 429 status.  `processOne`
is one iteration of the `while` loop acting on the head item: on a
throttling failure within budget the item goes back to the **front** of the
queue (`unshift`) carrying its incremented retry counter, and the recorded
delay is `retryDelay * backoffMultiplier ^ (retries - 1)` for the
already-incremented counter, and `processItem` chains the whole journey of one item
over the successive outcomes of its attempts. -/

structure RateLimiterOptions where
  maxRequestsPerMinute : ℕ
  maxRequestsPerSecond : ℕ
  maxRetries : ℕ
  retryDelay : ℕ
  backoffMultiplier : ℕ
deriving DecidableEq

/-- The singleton used for Bedrock calls. -/
def bedrockRateLimiterOptions : RateLimiterOptions := ⟨30, 1, 3, 2000, 2⟩

structure RLError where
  msg : String
  statusCode : Option ℕ
deriving DecidableEq

/-- JS `String.prototype.includes` on the underlying character lists. -/
def listIncludes (needle : List Char) : List Char → Bool
  | [] => needle.isEmpty
  | c :: cs => needle.isPrefixOf (c :: cs) || listIncludes needle cs

def strIncludes (hay needle : String) : Bool :=
  listIncludes needle.data hay.data

/-- JS `String.prototype.toLowerCase`, character-wise. -/
def strToLower (s : String) : String :=
  ⟨s.data.map Char.toLower⟩

/-- Models `isRateLimitError`: lowercased message contains a rate-limit signature, or
the status code is 429. -/
def isRateLimitError (e : RLError) : Bool :=
  let errorMessage := strToLower e.msg
  strIncludes errorMessage "rate limit" || strIncludes errorMessage "too many requests" ||
    e.statusCode == some 429

structure QueueItem where
  id : ℕ
  retries : ℕ
deriving DecidableEq

inductive StepEvent (α : Type) where
  | resolved (id : ℕ) (v : α)
  | rejected (id : ℕ) (e : RLError)
  | requeuedFront (id : ℕ) (delay : ℕ)
deriving DecidableEq

/-- One `while`-loop iteration of `RateLimiter.process` on the head item,
given the outcome of executing the head item `fn`. -/
def processOne {α : Type} (opts : RateLimiterOptions) (queue : List QueueItem)
    (outcome : Except RLError α) : List QueueItem × Option (StepEvent α) :=
  match queue with
  | [] => ([], none)
  | item :: rest =>
    match outcome with
    | .ok v => (rest, some (.resolved item.id v))
    | .error e =>
      if isRateLimitError e ∧ item.retries < opts.maxRetries then
        let retries1 := item.retries + 1
        let delay := opts.retryDelay * opts.backoffMultiplier ^ (retries1 - 1)
        (⟨item.id, retries1⟩ :: rest, some (.requeuedFront item.id delay))
      else (rest, some (.rejected item.id e))

/-- The whole journey of one item through the limiter, given the outcome of each
successive attempt: returns the settled promise value (`Except`) and the
list of backoff delays incurred, or `none` if the outcome trace is too
short to settle the item. -/
def processItem {α : Type} (opts : RateLimiterOptions) :
    List (Except RLError α) → ℕ → Option (Except RLError α × List ℕ)
  | [], _ => none
  | o :: rest, retries =>
    match o with
    | .ok v => some (.ok v, [])
    | .error e =>
      if isRateLimitError e ∧ retries < opts.maxRetries then
        let retries1 := retries + 1
        let delay := opts.retryDelay * opts.backoffMultiplier ^ (retries1 - 1)
        match processItem opts rest retries1 with
        | none => none
        | some (r, ds) => some (r, delay :: ds)
      else some (.error e, [])

/-! ## Batch sentiment engine (src/tools/sentiment-batch.ts)

Provider calls are modelled by their parse outcome: `.ok r` when the
Bedrock call succeeded and one of the layered JSON extraction strategies
produced a structure passing the `result && result.results` check, and
`.error f` when the call threw (with `f` recording whether the message
matched the rate-limit signatures) or every extraction strategy failed.
The cache is modelled cold (no prior entry for the batch), and the
`recordRequest` side effect on the rotator is the separate transition
`ModelRotator.recordRequest`.  Note that `analyzeBatchWithClaude` and
`analyzeBatchWithMistral` catch all their own errors and return a
synthesized result instead of throwing, so the `try/catch` fallback inside
`analyzeBatchSmart` is unreachable and the functions below are total. -/

inductive Sentiment where
  | positive
  | negative
  | neutral
  | mixed
deriving DecidableEq

structure ItemResult where
  index : ℕ
  sentiment : Sentiment
  score : ℚ
  confidence : ℚ
  errorFlag : Option String
deriving DecidableEq

structure BatchSummary where
  overallSentiment : String
  keyThemes : List String
  businessImplications : String
  modelTag : Option String
deriving DecidableEq

structure BatchSentimentResult where
  results : List ItemResult
  summary : BatchSummary
deriving DecidableEq

inductive ProviderFailure where
  | rateLimited
  | other
deriving DecidableEq

/-- Models the placeholder synthesis: one entry per input text with the
given index, sentiment neutral, score 0.5, confidence 0.5 and the `_error`
marker set to `msg`. -/
def placeholderResults (texts : List String) (msg : String) : List ItemResult :=
  (List.range texts.length).map (fun index => ⟨index, .neutral, 1/2, 1/2, some msg⟩)

def claudeErrorResult (texts : List String) : BatchSentimentResult :=
  ⟨placeholderResults texts "Batch analysis failed",
   ⟨"unknown", [], "Analysis unavailable due to API error", none⟩⟩

def mistralErrorResult (texts : List String) : BatchSentimentResult :=
  ⟨placeholderResults texts "All models failed",
   ⟨"unknown", [], "Analysis unavailable - all models failed", none⟩⟩

/-- Models `analyzeBatchWithMistral`: a successfully parsed result is returned
as-is apart from the `_model` tag added to its summary; any failure yields
the neutral placeholder per input item. -/
def analyzeBatchWithMistral (texts : List String)
    (outcome : Except ProviderFailure BatchSentimentResult) : BatchSentimentResult :=
  match outcome with
  | .ok r => ⟨r.results, { r.summary with modelTag := some "mistral-large" }⟩
  | .error _ => mistralErrorResult texts

/-- Models `analyzeBatchWithClaude(texts, useMistralFallback)`: a successfully
parsed result is returned unchanged; on failure, when the fallback flag is
set and the error matched the rate-limit signatures the Mistral path is
tried, otherwise the neutral placeholder per item is returned. -/
def analyzeBatchWithClaude (texts : List String) (useMistralFallback : Bool)
    (claudeOutcome mistralOutcome : Except ProviderFailure BatchSentimentResult) :
    BatchSentimentResult :=
  match claudeOutcome with
  | .ok r => r
  | .error f =>
    if useMistralFallback ∧ f = .rateLimited then
      analyzeBatchWithMistral texts mistralOutcome
    else claudeErrorResult texts

/-- Models `analyzeBatchSmart`: dispatches on the chosen model id
(testing whether `nextModel` contains the substring claude), with the Claude-internal Mistral fallback
disabled. -/
def analyzeBatchSmart (texts : List String) (nextModel : String)
    (claudeOutcome mistralOutcome : Except ProviderFailure BatchSentimentResult) :
    BatchSentimentResult :=
  if strIncludes nextModel "claude" then
    analyzeBatchWithClaude texts false claudeOutcome mistralOutcome
  else analyzeBatchWithMistral texts mistralOutcome

/-! ## Sentiment aggregation (src/tools/sentiment.ts, lines 363-396)

The aggregation loop `sentimentCounts[result.sentiment]++` is `tallySentiments`;
the dominant category is
`Object.entries(sentimentCounts).sort((a, b) => b[1] - a[1])[0][0]`.
`Object.entries` lists the keys in insertion order
(positive, negative, neutral, mixed — the order of the literal at line 364),
and ES2019 `Array.prototype.sort` is stable, so the head of the descending
sort is the first entry in insertion order attaining the maximal count;
`dominantSentiment` computes exactly that first maximum. -/

structure SentimentCounts where
  positive : ℕ
  negative : ℕ
  neutral : ℕ
  mixed : ℕ
deriving DecidableEq

def SentimentCounts.count (c : SentimentCounts) : Sentiment → ℕ
  | .positive => c.positive
  | .negative => c.negative
  | .neutral => c.neutral
  | .mixed => c.mixed

def SentimentCounts.bump (c : SentimentCounts) : Sentiment → SentimentCounts
  | .positive => { c with positive := c.positive + 1 }
  | .negative => { c with negative := c.negative + 1 }
  | .neutral => { c with neutral := c.neutral + 1 }
  | .mixed => { c with mixed := c.mixed + 1 }

def tallySentiments (results : List Sentiment) : SentimentCounts :=
  results.foldl SentimentCounts.bump ⟨0, 0, 0, 0⟩

/-- Lists `Object.entries(sentimentCounts)` in insertion order. -/
def sentimentEntries (c : SentimentCounts) : List (Sentiment × ℕ) :=
  [(.positive, c.positive), (.negative, c.negative), (.neutral, c.neutral), (.mixed, c.mixed)]

/-- Head of the stable descending sort of the entries: the first entry in
insertion order attaining the maximal count. -/
def dominantSentiment (c : SentimentCounts) : Sentiment :=
  ((sentimentEntries c).foldl (fun best p => if best.2 < p.2 then p else best)
    (Sentiment.positive, c.positive)).1

/-- Position of a category in the `sentimentCounts` literal insertion order. -/
def sentimentRank : Sentiment → ℕ
  | .positive => 0
  | .negative => 1
  | .neutral => 2
  | .mixed => 3

/-! ## startupAnalysisWorkflow (src/temporal/workflows.ts)

Each data-source connector is a Temporal activity proxy with a retry policy;
`outcomes c` is the terminal outcome of the Task of connector `c` (`.ok payload`,
or `.error msg` once its retries are exhausted).  Every connector promise
carries `.catch(e => slot = "Error: " + e.message)`, so a failed connector
writes an error string into its slot and never rejects the joined
`Promise.all`.  The Phase-5 sentiment activity is likewise caught.  The
founder/competitor phases are driven by optional inputs and are omitted
(modelling a run without them); the Phase-6 persistence activity and the
Phase-7 summary activity are awaited without a catch, so the workflow
reaches its terminal success state whenever they succeed. -/

inductive Connector where
  | twitter
  | reddit
  | bluesky
  | youtube
  | tiktok
  | instagram
  | webGeneral
  | linkedin
  | news
  | techCommunity
deriving DecidableEq

/-- The slot written for one settled connector promise. -/
def slotValue : Except String String → String
  | .ok r => r
  | .error msg => "Error: " ++ msg

structure WorkflowRunResult where
  dataSources : Connector → String
  sentimentAnalysis : String
  summary : String

def startupAnalysisWorkflow (outcomes : Connector → Except String String)
    (sentimentOutcome : Except String String)
    (saveOutcome : Except String Unit)
    (generateSummary : (Connector → String) → Except String String) :
    Except String WorkflowRunResult :=
  let dataSources := fun c => slotValue (outcomes c)
  let sentimentAnalysis := slotValue sentimentOutcome
  match saveOutcome with
  | .error e => .error e
  | .ok _ =>
    match generateSummary dataSources with
    | .error e => .error e
    | .ok s => .ok ⟨dataSources, sentimentAnalysis, s⟩

/-! ## Concrete states used by counterexamples and witnesses.

The sentiment rotator singleton is constructed with the two Bedrock model
ids (src/services/model-rotator.ts, bottom); the states below replay short
call sequences against it. -/

def modelA : String := "anthropic.claude-3-5-sonnet-20240620-v1:0"

def modelB : String := "mistral.mistral-large-2402-v1:0"

def sentimentModelRotator : ModelRotator := mkModelRotator [modelA, modelB]

/-- Three consecutive failures recorded against the Claude model. -/
def rotatorAfterFailures : ModelRotator :=
  ((sentimentModelRotator.recordRequest modelA false 0).recordRequest modelA false
    0).recordRequest modelA false 0

/-- The failure state followed by six recorded successes (enough to bring
`recentErrors` from 3 back to 0 in `0.5` steps). -/
def rotatorAfterSuccesses : ModelRotator :=
  (((((rotatorAfterFailures.recordRequest modelA true 0).recordRequest modelA true
    0).recordRequest modelA true 0).recordRequest modelA true 0).recordRequest modelA true
    0).recordRequest modelA true 0

/-- The failure state after a single 60-second decay tick. -/
def rotatorAfterOneTick : ModelRotator := rotatorAfterFailures.decayTick

/-- The failure state after three decay ticks. -/
def rotatorAfterThreeTicks : ModelRotator :=
  rotatorAfterFailures.decayTick.decayTick.decayTick

/-- Concrete single-failure run used as witness for C3: the Twitter
connector fails with message "boom", every other source returns "data". -/
def demoOutcomes : Connector → Except String String :=
  fun c => if c = Connector.twitter then .error "boom" else .ok "data"

/-! # Theorems

Helper lemmas about the association-list map, then one theorem (plus
counterexample/witness where required) per specification claim. -/

theorem mapGet_mapSet_self {α : Type} (m : List (String × α)) (k : String) (v : α) :
    mapGet (mapSet m k v) k = some v := by
  induction m with
  | nil => simp [mapSet, mapGet]
  | cons p rest ih =>
    obtain ⟨k0, v0⟩ := p
    by_cases h : k0 = k
    · simp [mapSet, h, mapGet]
    · simp [mapSet, h, mapGet, ih]

theorem mapDelete_mapSet {α : Type} (m : List (String × α)) (k : String) (v : α) :
    mapDelete (mapSet m k v) k = mapDelete m k := by
  induction m with
  | nil => simp [mapSet, mapDelete]
  | cons p rest ih =>
    obtain ⟨k0, v0⟩ := p
    by_cases h : k0 = k
    · simp [mapSet, mapDelete, h]
    · simp [mapSet, mapDelete, h, ih]

theorem mapGet_eq_none_of_not_mem {α : Type} (m : List (String × α)) (k : String)
    (h : k ∉ m.map Prod.fst) : mapGet m k = none := by
  induction m with
  | nil => rfl
  | cons p rest ih =>
    obtain ⟨k0, v0⟩ := p
    simp only [List.map_cons, List.mem_cons] at h
    push_neg at h
    have hne : k0 ≠ k := fun hk => h.1 hk.symm
    simp [mapGet, hne, ih h.2]

theorem mapGet_mapDelete_of_nodup {α : Type} (m : List (String × α)) (k : String)
    (h : (m.map Prod.fst).Nodup) : mapGet (mapDelete m k) k = none := by
  induction m with
  | nil => rfl
  | cons p rest ih =>
    obtain ⟨k0, v0⟩ := p
    simp only [List.map_cons, List.nodup_cons] at h
    by_cases hk : k0 = k
    · subst hk
      simpa [mapDelete] using mapGet_eq_none_of_not_mem rest k0 h.1
    · simp [mapDelete, mapGet, hk, ih h.2]

theorem mapGet_map_value {α β : Type} (f : α → β) (l : List (String × α)) (k : String) :
    mapGet (l.map (fun p => (p.1, f p.2))) k = (mapGet l k).map f := by
  induction l with
  | nil => rfl
  | cons p rest ih =>
    obtain ⟨k0, v0⟩ := p
    by_cases h : k0 = k <;> simp [mapGet, h, ih]

theorem mapGet_eq_of_mem_nodup {α : Type} (m : List (String × α)) (k : String) (a : α)
    (hmem : (k, a) ∈ m) (hnodup : (m.map Prod.fst).Nodup) : mapGet m k = some a := by
  induction m with
  | nil => simp at hmem
  | cons p rest ih =>
    obtain ⟨k0, v0⟩ := p
    simp only [List.map_cons, List.nodup_cons] at hnodup
    rcases List.mem_cons.mp hmem with hhead | htail
    · obtain ⟨hk, hv⟩ := Prod.mk.injEq .. ▸ hhead
      simp [mapGet, hk.symm, hv]
    · have hk0 : k0 ≠ k := by
        intro hk
        subst hk
        exact hnodup.1 (List.mem_map.mpr ⟨(k0, a), htail, rfl⟩)
      simp [mapGet, hk0, ih htail hnodup.2]

/-- C4 (counterexample): with ttl = 1 second, reading at elapsed time exactly
equal to the ttl (1000 ms after the `set`) still returns the stored value:
eviction fires only when `Date.now() > item.expiry` holds STRICTLY, so the
claimed "absent for every elapsed time ≥ ttl" fails at the boundary. -/
theorem simpleCache_expiry_boundary_cex :
    (1 : ℚ) * 1000 ≤ 1000 - 0 ∧
    (((mkSimpleCache Nat 600).set 0 "k" 7 (some 1)).get 1000 "k").fst = some 7 := by
  refine ⟨by norm_num, ?_⟩
  norm_num [mkSimpleCache, SimpleCache.set, SimpleCache.get, mapSet, mapGet]

/-- C4 (amended): `set(k, v, ttl)` with a positive ttl followed immediately by
`get(k)` returns `v`; for every elapsed time STRICTLY greater than ttl the
`get` returns absent and lazily evicts the entry (at elapsed time exactly ttl
the entry is still served, see the counterexample). -/
theorem simpleCache_set_get_expiry_amended {T : Type} (c : SimpleCache T) (now : ℚ)
    (k : String) (v : T) (ttl : ℚ) (httl : 0 < ttl)
    (hnodup : (c.cache.map Prod.fst).Nodup) :
    (((c.set now k v (some ttl)).get now k).fst = some v) ∧
    (∀ e : ℚ, ttl * 1000 < e →
      (((c.set now k v (some ttl)).get (now + e) k).fst = none) ∧
      mapGet (((c.set now k v (some ttl)).get (now + e) k).snd.cache) k = none) := by
  have hne : ttl ≠ 0 := ne_of_gt httl
  have hset : (c.set now k v (some ttl)).cache = mapSet c.cache k ⟨v, now + ttl * 1000⟩ := by
    simp [SimpleCache.set, hne]
  have hpos : (0 : ℚ) < ttl * 1000 := by positivity
  constructor
  · have hcond : ¬ now > now + ttl * 1000 := by linarith
    simp [SimpleCache.get, hset, mapGet_mapSet_self, hcond]
  · intro e he
    have hcond : now + e > now + ttl * 1000 := by linarith
    constructor
    · simp [SimpleCache.get, hset, mapGet_mapSet_self, hcond]
    · simp only [SimpleCache.get, hset, mapGet_mapSet_self, if_pos hcond]
      simpa [mapDelete_mapSet] using mapGet_mapDelete_of_nodup c.cache k hnodup

/-- Witness for the amended C4 theorem at a concrete cache and ttl. -/
theorem simpleCache_set_get_expiry_amended_witness :
    ((0 : ℚ) < 1 ∧ (((mkSimpleCache Nat 600).cache.map Prod.fst).Nodup)) ∧
    (((mkSimpleCache Nat 600).set 0 "k" 7 (some 1)).get 0 "k").fst = some 7 ∧
    (((mkSimpleCache Nat 600).set 0 "k" 7 (some 1)).get (0 + 1001) "k").fst = none := by
  refine ⟨⟨by norm_num, by simp [mkSimpleCache]⟩, ?_, ?_⟩
  · exact (simpleCache_set_get_expiry_amended (mkSimpleCache Nat 600) 0 "k" 7 1 (by norm_num)
      (by simp [mkSimpleCache])).1
  · exact ((simpleCache_set_get_expiry_amended (mkSimpleCache Nat 600) 0 "k" 7 1 (by norm_num)
      (by simp [mkSimpleCache])).2 1001 (by norm_num)).1

/-- C10: an explicit ttl of `0` seconds is falsy in
`(ttlSeconds || this.defaultTTL / 1000)`, so `set(k, v, 0)` is literally the
same state transition as `set(k, v)` with the default ttl, and the value is
served for the whole default-TTL window after the set. -/
theorem simpleCache_zero_ttl_uses_default {T : Type} (c : SimpleCache T) (now : ℚ)
    (k : String) (v : T) :
    (c.set now k v (some 0) = c.set now k v none) ∧
    (∀ e : ℚ, 0 ≤ e → e ≤ c.defaultTTL →
      ((c.set now k v (some 0)).get (now + e) k).fst = some v) := by
  have hdiv : c.defaultTTL / 1000 * 1000 = c.defaultTTL := by
    field_simp
  refine ⟨by simp [SimpleCache.set], ?_⟩
  intro e he0 hewin
  have hset : (c.set now k v (some 0)).cache = mapSet c.cache k ⟨v, now + c.defaultTTL⟩ := by
    simp [SimpleCache.set, hdiv]
  have hcond : ¬ now + e > now + c.defaultTTL := by linarith
  simp [SimpleCache.get, hset, mapGet_mapSet_self, hcond]

/-- Witness for C10 at the sentiment cache (default ttl 600 s): the value is
still served 600000 ms after a `set` with an explicit ttl of 0. -/
theorem simpleCache_zero_ttl_uses_default_witness :
    ((0 : ℚ) ≤ 600000 ∧ (600000 : ℚ) ≤ (mkSimpleCache Nat 600).defaultTTL) ∧
    (((mkSimpleCache Nat 600).set 0 "k" 7 (some 0)).get (0 + 600000) "k").fst = some 7 := by
  refine ⟨⟨by norm_num, by norm_num [mkSimpleCache]⟩, ?_⟩
  exact (simpleCache_zero_ttl_uses_default (mkSimpleCache Nat 600) 0 "k" 7).2 600000
    (by norm_num) (by norm_num [mkSimpleCache])

/-- C8: for every non-empty text list — however short or long the texts —
both `getOptimalBatchSize` variants return a value inside their configured
clamp range: [5, 10] for the stricter variant and [5, 25] for the primary
variant. -/
theorem getOptimalBatchSize_clamped (texts : List String) (h : texts ≠ []) :
    (5 ≤ getOptimalBatchSize texts ∧ getOptimalBatchSize texts ≤ 10) ∧
    (5 ≤ getOptimalBatchSize25 texts ∧ getOptimalBatchSize25 texts ≤ 25) := by
  constructor
  · unfold getOptimalBatchSize
    by_cases h0 : tokensPerText texts = 0
    · simp [h0]
    · simp only [h0, if_false]
      exact ⟨le_max_left _ _, max_le (by norm_num) (min_le_left _ _)⟩
  · unfold getOptimalBatchSize25
    by_cases h0 : tokensPerText texts = 0
    · simp [h0]
    · simp only [h0, if_false]
      exact ⟨le_max_left _ _, max_le (by norm_num) (min_le_left _ _)⟩

/-- Witness for C8 on a concrete short text and a concrete pathologically
long text (1000 characters). -/
theorem getOptimalBatchSize_clamped_witness :
    ((["hi"] : List String) ≠ [] ∧
      (5 ≤ getOptimalBatchSize ["hi"] ∧ getOptimalBatchSize ["hi"] ≤ 10) ∧
      (5 ≤ getOptimalBatchSize25 ["hi"] ∧ getOptimalBatchSize25 ["hi"] ≤ 25)) ∧
    (([String.mk (List.replicate 1000 'a')] : List String) ≠ [] ∧
      (5 ≤ getOptimalBatchSize [String.mk (List.replicate 1000 'a')] ∧
        getOptimalBatchSize [String.mk (List.replicate 1000 'a')] ≤ 10) ∧
      (5 ≤ getOptimalBatchSize25 [String.mk (List.replicate 1000 'a')] ∧
        getOptimalBatchSize25 [String.mk (List.replicate 1000 'a')] ≤ 25)) := by
  constructor
  · exact ⟨by simp, getOptimalBatchSize_clamped ["hi"] (by simp)⟩
  · exact ⟨by simp, getOptimalBatchSize_clamped [String.mk (List.replicate 1000 'a')] (by simp)⟩

theorem dominantSentiment_spec (c : SentimentCounts) :
    (∀ s, c.count s ≤ c.count (dominantSentiment c)) ∧
    (∀ s, c.count s = c.count (dominantSentiment c) →
      sentimentRank (dominantSentiment c) ≤ sentimentRank s) := by
  obtain ⟨p, q, r, m⟩ := c
  simp only [dominantSentiment, sentimentEntries, List.foldl]
  split_ifs <;>
    refine ⟨fun s => ?_, fun s hs => ?_⟩ <;>
      cases s <;>
        simp_all [SentimentCounts.count, sentimentRank] <;>
          omega

/-- C9: for a non-empty per-item result list, the aggregated dominant
category attains the maximal per-category count, and any category tying that
count ranks no earlier in the fixed insertion order
positive > negative > neutral > mixed. -/
theorem dominantSentiment_max_and_tiebreak (results : List Sentiment) (hne : results ≠ []) :
    (∀ s, (tallySentiments results).count s ≤
      (tallySentiments results).count (dominantSentiment (tallySentiments results))) ∧
    (∀ s, (tallySentiments results).count s =
        (tallySentiments results).count (dominantSentiment (tallySentiments results)) →
      sentimentRank (dominantSentiment (tallySentiments results)) ≤ sentimentRank s) :=
  dominantSentiment_spec (tallySentiments results)

/-- Witness for C9 on the three-way tie `[positive, negative, neutral]` (the
dominant category must then be `positive`, the earliest in insertion order). -/
theorem dominantSentiment_max_and_tiebreak_witness :
    ([Sentiment.positive, Sentiment.negative, Sentiment.neutral] ≠ ([] : List Sentiment)) ∧
    sentimentRank
        (dominantSentiment (tallySentiments [Sentiment.positive, Sentiment.negative,
          Sentiment.neutral])) ≤
      sentimentRank Sentiment.positive := by
  refine ⟨by simp, ?_⟩
  exact (dominantSentiment_max_and_tiebreak [Sentiment.positive, Sentiment.negative,
    Sentiment.neutral] (by simp)).2 Sentiment.positive (by decide)

/-- C3: when the Task of exactly one data-source connector ends in terminal
failure (retries exhausted) and every other connector succeeds, the
workflow still reaches its terminal success state and returns a result in
which the slot of the failed connector holds the error string and every other
slot holds its success payload (persistence and summary generation, which
the workflow awaits without a catch, are assumed to succeed, as the claim
requires of the non-connector steps). -/
theorem startupAnalysisWorkflow_single_connector_failure
    (outcomes : Connector → Except String String) (c0 : Connector) (e : String)
    (sres ssum : String)
    (generateSummary : (Connector → String) → Except String String)
    (hfail : outcomes c0 = .error e)
    (hok : ∀ c, c ≠ c0 → ∃ p, outcomes c = .ok p)
    (hsum : generateSummary (fun c => slotValue (outcomes c)) = .ok ssum) :
    ∃ res : WorkflowRunResult,
      startupAnalysisWorkflow outcomes (.ok sres) (.ok ()) generateSummary = .ok res ∧
      res.dataSources c0 = "Error: " ++ e ∧
      (∀ c, c ≠ c0 → ∃ p, outcomes c = .ok p ∧ res.dataSources c = p) := by
  refine ⟨⟨fun c => slotValue (outcomes c), slotValue (.ok sres), ssum⟩, ?_, ?_, ?_⟩
  · simp [startupAnalysisWorkflow, hsum]
  · simp [slotValue, hfail]
  · intro c hc
    obtain ⟨p, hp⟩ := hok c hc
    exact ⟨p, hp, by simp [slotValue, hp]⟩

/-- Witness for C3 at the concrete run where only the Twitter slot fails. -/
theorem startupAnalysisWorkflow_single_connector_failure_witness :
    (demoOutcomes Connector.twitter = .error "boom" ∧
      (∀ c, c ≠ Connector.twitter → ∃ p, demoOutcomes c = .ok p)) ∧
    ∃ res : WorkflowRunResult,
      startupAnalysisWorkflow demoOutcomes (.ok "sentiment") (.ok ())
          (fun ds => .ok (ds Connector.reddit)) = .ok res ∧
      res.dataSources Connector.twitter = "Error: " ++ "boom" ∧
      (∀ c, c ≠ Connector.twitter → ∃ p, demoOutcomes c = .ok p ∧ res.dataSources c = p) := by
  refine ⟨⟨by simp [demoOutcomes], fun c hc => ⟨"data", by simp [demoOutcomes, hc]⟩⟩, ?_⟩
  exact startupAnalysisWorkflow_single_connector_failure demoOutcomes Connector.twitter
    "boom" "sentiment" "data" (fun ds => .ok (ds Connector.reddit))
    (by simp [demoOutcomes]) (fun c hc => ⟨"data", by simp [demoOutcomes, hc]⟩) rfl

theorem placeholderResults_length (texts : List String) (msg : String) :
    (placeholderResults texts msg).length = texts.length := by
  simp [placeholderResults]

/-- C1 (counterexample): the per-item result list length does NOT equal the
input length for every provider outcome.  For the one-text input below, a
provider success whose parsed `results` array is empty passes the
`result && result.results` check and is returned unchanged by
`analyzeBatchSmart`, giving 0 per-item entries for 1 input text. -/
theorem analyzeBatchSmart_length_cex :
    (analyzeBatchSmart ["great product"] "anthropic.claude-3-5-sonnet-20240620-v1:0"
        (.ok ⟨[], ⟨"unknown", [], "none", none⟩⟩) (.error .other)).results.length = 0 ∧
    (["great product"] : List String).length = 1 := by
  decide

/-- C1 (amended): the per-item result list has exactly one entry per input
text whenever the consulted provider path fails (placeholder synthesis
guarantees this); when the provider output parses successfully the parsed
result is returned as-is, so the per-item list is exactly provider-produced
`results` array, whose length is never validated against the input length. -/
theorem analyzeBatchSmart_length_amended (texts : List String) (nextModel : String)
    (claudeOutcome mistralOutcome : Except ProviderFailure BatchSentimentResult) :
    (∀ fc fm, claudeOutcome = .error fc → mistralOutcome = .error fm →
      (analyzeBatchSmart texts nextModel claudeOutcome mistralOutcome).results.length =
        texts.length) ∧
    (∀ r, claudeOutcome = .ok r → strIncludes nextModel "claude" = true →
      (analyzeBatchSmart texts nextModel claudeOutcome mistralOutcome).results = r.results) ∧
    (∀ r, mistralOutcome = .ok r → strIncludes nextModel "claude" = false →
      (analyzeBatchSmart texts nextModel claudeOutcome mistralOutcome).results = r.results) := by
  refine ⟨?_, ?_, ?_⟩
  · intro fc fm hc hm
    subst hc; subst hm
    unfold analyzeBatchSmart
    by_cases hmodel : strIncludes nextModel "claude" = true
    · simp [hmodel, analyzeBatchWithClaude, claudeErrorResult, placeholderResults_length]
    · simp only [Bool.not_eq_true] at hmodel
      simp [hmodel, analyzeBatchWithMistral, mistralErrorResult, placeholderResults_length]
  · intro r hc hmodel
    subst hc
    simp [analyzeBatchSmart, hmodel, analyzeBatchWithClaude]
  · intro r hm hmodel
    simp [analyzeBatchSmart, hm, hmodel, analyzeBatchWithMistral]

/-- Witness for the amended C1 theorem: both provider paths fail on a
two-text batch (placeholder list of length 2), and a Mistral success with a
one-entry list is passed through unchanged. -/
theorem analyzeBatchSmart_length_amended_witness :
    (analyzeBatchSmart ["a", "b"] "mistral.mistral-large-2402-v1:0"
        (.error .other) (.error .rateLimited)).results.length =
      (["a", "b"] : List String).length ∧
    (analyzeBatchSmart ["a"] "mistral.mistral-large-2402-v1:0"
        (.error .other)
        (.ok ⟨[⟨0, .positive, 9/10, 9/10, none⟩], ⟨"positive", [], "good", none⟩⟩)).results =
      [⟨0, .positive, 9/10, 9/10, none⟩] := by
  constructor
  · exact (analyzeBatchSmart_length_amended ["a", "b"] "mistral.mistral-large-2402-v1:0"
      (.error .other) (.error .rateLimited)).1 .other .rateLimited rfl rfl
  · exact (analyzeBatchSmart_length_amended ["a"] "mistral.mistral-large-2402-v1:0"
      (.error .other)
      (.ok ⟨[⟨0, .positive, 9/10, 9/10, none⟩], ⟨"positive", [], "good", none⟩⟩)).2.2
      ⟨[⟨0, .positive, 9/10, 9/10, none⟩], ⟨"positive", [], "good", none⟩⟩ rfl (by decide)

/-- C2: when the provider chosen by the rotator fails and the Mistral path
would fail as well (parse failure or throttling exhausted, any combination),
`analyzeBatchSmart` still returns a value — the embedding is a total
function, mirroring that every failure is caught inside the engine — and
that value carries exactly one placeholder per input text with sentiment
neutral, score 0.5, confidence 0.5, and the degraded `_error` flag set. -/
theorem analyzeBatchSmart_placeholder_on_total_failure (texts : List String)
    (nextModel : String) (fc fm : ProviderFailure) :
    (analyzeBatchSmart texts nextModel (.error fc) (.error fm)).results.length =
      texts.length ∧
    ∀ item ∈ (analyzeBatchSmart texts nextModel (.error fc) (.error fm)).results,
      item.sentiment = .neutral ∧ item.score = 1/2 ∧ item.confidence = 1/2 ∧
        item.errorFlag ≠ none := by
  have hmem : ∀ msg : String, ∀ item ∈ placeholderResults texts msg,
      item.sentiment = Sentiment.neutral ∧ item.score = 1/2 ∧ item.confidence = 1/2 ∧
        item.errorFlag ≠ none := by
    intro msg item hitem
    simp only [placeholderResults, List.mem_map, List.mem_range] at hitem
    obtain ⟨i, -, hi⟩ := hitem
    subst hi
    simp
  have hres : (analyzeBatchSmart texts nextModel (.error fc) (.error fm)).results =
      placeholderResults texts
        (if strIncludes nextModel "claude" = true then "Batch analysis failed"
         else "All models failed") := by
    unfold analyzeBatchSmart
    by_cases hmodel : strIncludes nextModel "claude" = true
    · simp [hmodel, analyzeBatchWithClaude, claudeErrorResult]
    · simp only [Bool.not_eq_true] at hmodel
      simp [hmodel, analyzeBatchWithMistral, mistralErrorResult]
  rw [hres]
  exact ⟨placeholderResults_length texts _, hmem _⟩

/-- Witness for C2: a concrete two-text batch with the Claude model selected
and both provider paths failing. -/
theorem analyzeBatchSmart_placeholder_on_total_failure_witness :
    (analyzeBatchSmart ["x", "y"] "anthropic.claude-3-5-sonnet-20240620-v1:0"
        (.error .rateLimited) (.error .other)).results.length =
      (["x", "y"] : List String).length ∧
    ∀ item ∈ (analyzeBatchSmart ["x", "y"] "anthropic.claude-3-5-sonnet-20240620-v1:0"
        (.error .rateLimited) (.error .other)).results,
      item.sentiment = .neutral ∧ item.score = 1/2 ∧ item.confidence = 1/2 ∧
        item.errorFlag ≠ none :=
  analyzeBatchSmart_placeholder_on_total_failure ["x", "y"]
    "anthropic.claude-3-5-sonnet-20240620-v1:0" .rateLimited .other

theorem processItem_all_throttle {α : Type} (opts : RateLimiterOptions) (es : List RLError)
    (elast : RLError) :
    ∀ r : ℕ, (∀ x ∈ es, isRateLimitError x = true) → isRateLimitError elast = true →
    r + es.length = opts.maxRetries →
    processItem (α := α) opts (es.map Except.error ++ [Except.error elast]) r =
      some (.error elast,
        (List.range es.length).map (fun i => opts.retryDelay * opts.backoffMultiplier ^ (r + i))) := by
  induction es with
  | nil =>
    intro r hes hlast hlen
    simp only [List.length_nil, Nat.add_zero] at hlen
    have hnot : ¬ r < opts.maxRetries := by omega
    simp [processItem, hlast, hnot]
  | cons e0 rest ih =>
    intro r hes hlast hlen
    have h0 : isRateLimitError e0 = true := hes e0 (List.mem_cons_self e0 rest)
    have hlt : r < opts.maxRetries := by
      simp only [List.length_cons] at hlen
      omega
    have hrec := ih (r + 1) (fun x hx => hes x (List.mem_cons_of_mem e0 hx)) hlast
      (by simp only [List.length_cons] at hlen; omega)
    simp only [List.map_cons, List.cons_append, processItem, h0, hlt, and_self, if_pos,
      Nat.add_sub_cancel, true_and]
    simp only [List.append_eq]
    rw [hrec, List.length_cons, List.range_succ_eq_map, List.map_cons, List.map_map]
    simp only [Nat.add_zero, Option.some.injEq, Prod.mk.injEq, List.cons.injEq, true_and]
    apply List.map_congr_left
    intro i hi
    simp only [Function.comp_apply]
    congr 1
    congr 1
    omega

/-- C7: the rate-limited queue retry policy.
(1) a throttling failure within the retry budget re-queues the item at the
FRONT of the queue with its retry counter bumped and a backoff delay of
`retryDelay * backoffMultiplier ^ attempt` (`attempt` = retries already
consumed); (2) a throttling failure past the budget rejects the promise with
the provider error; (3) a non-throttling failure rejects immediately with
no retry at this layer; (4) a trace of `maxRetries + 1` throttling failures
incurs exactly `maxRetries` backoff delays `retryDelay * multiplier ^ i`,
`i = 0 .. maxRetries - 1`, then rejects with the final error — and those
delays are strictly increasing whenever `backoffMultiplier > 1` and
`retryDelay > 0`. -/
theorem rateLimiter_throttle_retry_policy (opts : RateLimiterOptions) :
    (∀ (item : QueueItem) (rest : List QueueItem) (e : RLError),
      isRateLimitError e = true → item.retries < opts.maxRetries →
      processOne (α := ℕ) opts (item :: rest) (.error e) =
        (⟨item.id, item.retries + 1⟩ :: rest,
         some (.requeuedFront item.id
           (opts.retryDelay * opts.backoffMultiplier ^ item.retries)))) ∧
    (∀ (item : QueueItem) (rest : List QueueItem) (e : RLError),
      isRateLimitError e = true → opts.maxRetries ≤ item.retries →
      processOne (α := ℕ) opts (item :: rest) (.error e) =
        (rest, some (.rejected item.id e))) ∧
    (∀ (item : QueueItem) (rest : List QueueItem) (e : RLError),
      isRateLimitError e = false →
      processOne (α := ℕ) opts (item :: rest) (.error e) =
        (rest, some (.rejected item.id e))) ∧
    (∀ (es : List RLError) (elast : RLError),
      (∀ x ∈ es, isRateLimitError x = true) → isRateLimitError elast = true →
      es.length = opts.maxRetries →
      processItem (α := ℕ) opts (es.map Except.error ++ [Except.error elast]) 0 =
        some (.error elast,
          (List.range opts.maxRetries).map
            (fun i => opts.retryDelay * opts.backoffMultiplier ^ i))) ∧
    (1 < opts.backoffMultiplier → 0 < opts.retryDelay →
      StrictMono (fun i : ℕ => opts.retryDelay * opts.backoffMultiplier ^ i)) := by
  refine ⟨?_, ?_, ?_, ?_, ?_⟩
  · intro item rest e he hlt
    simp [processOne, he, hlt]
  · intro item rest e he hge
    have hnot : ¬ item.retries < opts.maxRetries := by omega
    simp [processOne, he, hnot]
  · intro item rest e he
    simp [processOne, he]
  · intro es elast hes hlast hlen
    have := processItem_all_throttle (α := ℕ) opts es elast 0 hes hlast (by omega)
    rw [this, hlen]
    simp
  · intro hm hd
    intro i j hij
    exact mul_lt_mul_of_pos_left (Nat.pow_lt_pow_right hm hij) hd

/-- Witness for C7 at the Bedrock limiter options (maxRetries 3, delay
2000 ms, multiplier 2): a first throttling failure re-queues at the front
with delay 2000; a non-throttling failure rejects immediately; a trace of
four throttling failures is rejected after delays 2000, 4000, 8000. -/
theorem rateLimiter_throttle_retry_policy_witness :
    (isRateLimitError ⟨"Rate limit exceeded", none⟩ = true ∧
      isRateLimitError ⟨"boom", none⟩ = false ∧ (0 : ℕ) < bedrockRateLimiterOptions.maxRetries) ∧
    processOne (α := ℕ) bedrockRateLimiterOptions [⟨1, 0⟩] (.error ⟨"Rate limit exceeded", none⟩) =
      ([⟨1, 1⟩], some (.requeuedFront 1 2000)) ∧
    processOne (α := ℕ) bedrockRateLimiterOptions [⟨1, 0⟩] (.error ⟨"boom", none⟩) =
      ([], some (.rejected 1 ⟨"boom", none⟩)) ∧
    processItem (α := ℕ) bedrockRateLimiterOptions
        (List.replicate 3 (Except.error ⟨"Rate limit exceeded", none⟩) ++
          [Except.error ⟨"Too many requests", some 429⟩]) 0 =
      some (.error ⟨"Too many requests", some 429⟩, [2000, 4000, 8000]) := by
  have hrl : isRateLimitError ⟨"Rate limit exceeded", none⟩ = true := by decide
  have hrl2 : isRateLimitError ⟨"Too many requests", some 429⟩ = true := by decide
  have hnb : isRateLimitError ⟨"boom", none⟩ = false := by decide
  refine ⟨⟨hrl, hnb, by decide⟩, ?_, ?_, ?_⟩
  · exact (rateLimiter_throttle_retry_policy bedrockRateLimiterOptions).1 ⟨1, 0⟩ [] _ hrl
      (by decide)
  · exact (rateLimiter_throttle_retry_policy bedrockRateLimiterOptions).2.2.1 ⟨1, 0⟩ [] _ hnb
  · have h4 := (rateLimiter_throttle_retry_policy bedrockRateLimiterOptions).2.2.2.1
      (List.replicate 3 ⟨"Rate limit exceeded", none⟩) ⟨"Too many requests", some 429⟩
      (fun x hx => by
        rw [List.eq_of_mem_replicate hx]
        exact hrl)
      hrl2 (by decide)
    rw [List.map_replicate] at h4
    rw [h4]
    norm_num [List.range_succ, bedrockRateLimiterOptions]

theorem recordRequest_success_stats (r : ModelRotator) (model : String) (now : ℚ)
    (s : ModelStats) (h : mapGet r.stats model = some s) :
    mapGet (r.recordRequest model true now).stats model =
      some ⟨s.requestCount + 1, now, max 0 (s.recentErrors - 1/2), s.isAvailable⟩ := by
  unfold ModelRotator.recordRequest
  rw [h]
  simp [mapGet_mapSet_self]

theorem recordRequest_failure_stats (r : ModelRotator) (model : String) (now : ℚ)
    (s : ModelStats) (h : mapGet r.stats model = some s) :
    mapGet (r.recordRequest model false now).stats model =
      some ⟨s.requestCount + 1, now, s.recentErrors + 1,
        if 3 ≤ s.recentErrors + 1 then false else s.isAvailable⟩ := by
  unfold ModelRotator.recordRequest
  rw [h]
  simp [mapGet_mapSet_self]

theorem mapGet_decayMap (l : List (String × ModelStats)) (model : String) (s : ModelStats)
    (h : mapGet l model = some s) :
    mapGet (l.map (fun p =>
      let e := max 0 (p.2.recentErrors - 1)
      (p.1, { p.2 with recentErrors := e, isAvailable := if e = 0 then true else p.2.isAvailable }))) model =
      some ⟨s.requestCount, s.lastRequestTime, max 0 (s.recentErrors - 1),
        if max 0 (s.recentErrors - 1) = 0 then true else s.isAvailable⟩ := by
  induction l with
  | nil => simp [mapGet] at h
  | cons p rest ih =>
    obtain ⟨k0, v0⟩ := p
    by_cases hk : k0 = model
    · rw [mapGet, if_pos hk] at h
      obtain rfl : v0 = s := Option.some.injEq .. ▸ h
      rw [List.map_cons, mapGet, if_pos hk]
    · rw [mapGet, if_neg hk] at h
      rw [List.map_cons, mapGet, if_neg hk]
      exact ih h

theorem decayTick_stats (r : ModelRotator) (model : String) (s : ModelStats)
    (h : mapGet r.stats model = some s) :
    mapGet r.decayTick.stats model =
      some ⟨s.requestCount, s.lastRequestTime, max 0 (s.recentErrors - 1),
        if max 0 (s.recentErrors - 1) = 0 then true else s.isAvailable⟩ :=
  mapGet_decayMap r.stats model s h

theorem decayTick_iterate_recovers (n : ℕ) :
    ∀ (r : ModelRotator) (model : String) (s : ModelStats),
      mapGet r.stats model = some s → 1 ≤ n → s.recentErrors ≤ n →
      ∃ s1, mapGet ((ModelRotator.decayTick)^[n] r).stats model = some s1 ∧
        s1.recentErrors = 0 ∧ s1.isAvailable = true := by
  induction n with
  | zero => intro r model s hs h1 _; omega
  | succ k ih =>
    intro r model s hs h1 hle
    have hstep := decayTick_stats r model s hs
    rcases Nat.eq_zero_or_pos k with hk0 | hkpos
    · subst hk0
      have hz : max 0 (s.recentErrors - 1) = 0 := by
        rw [max_eq_left]
        push_cast at hle
        linarith
      exact ⟨⟨s.requestCount, s.lastRequestTime, max 0 (s.recentErrors - 1),
        if max 0 (s.recentErrors - 1) = 0 then true else s.isAvailable⟩,
        by simpa [Function.iterate_one] using hstep, by simp [hz], by simp [hz]⟩
    · have hle1 : (⟨s.requestCount, s.lastRequestTime, max 0 (s.recentErrors - 1),
          if max 0 (s.recentErrors - 1) = 0 then true else s.isAvailable⟩ :
            ModelStats).recentErrors ≤ (k : ℚ) := by
        simp only [max_le_iff]
        push_cast at hle ⊢
        refine ⟨by exact_mod_cast Nat.cast_nonneg k, by linarith⟩
      have hrec := ih r.decayTick model _ hstep hkpos hle1
      rwa [← Function.iterate_succ_apply] at hrec

theorem bestStep_foldl_isSome (pairs : List (String × ModelStats)) :
    ∀ acc : String × Option ℚ, pairs ≠ [] ∨ acc.2.isSome →
      (pairs.foldl bestStep acc).2.isSome := by
  induction pairs with
  | nil =>
    intro acc h
    rcases h with h | h
    · exact absurd rfl h
    · simpa using h
  | cons p0 rest ih =>
    intro acc _
    rw [List.foldl_cons]
    apply ih
    right
    cases hacc : acc.2 with
    | none => simp [bestStep, hacc]
    | some m =>
      by_cases hlt : p0.2.recentErrors < m <;> simp [bestStep, hacc, hlt]

theorem bestStep_foldl_mono (pairs : List (String × ModelStats)) :
    ∀ (acc : String × Option ℚ) (m : ℚ), acc.2 = some m →
      ∀ q, (pairs.foldl bestStep acc).2 = some q → q ≤ m := by
  induction pairs with
  | nil =>
    intro acc m hm q hq
    rw [List.foldl_nil, hm] at hq
    obtain rfl : m = q := Option.some.injEq .. ▸ hq
    exact le_refl _
  | cons p0 rest ih =>
    intro acc m hm q hq
    rw [List.foldl_cons] at hq
    by_cases hlt : p0.2.recentErrors < m
    · have hstep : bestStep acc p0 = (p0.1, some p0.2.recentErrors) := by
        simp [bestStep, hm, hlt]
      rw [hstep] at hq
      have := ih _ p0.2.recentErrors rfl q hq
      linarith
    · have hstep : bestStep acc p0 = acc := by
        simp [bestStep, hm, hlt]
      rw [hstep] at hq
      exact ih acc m hm q hq

theorem bestStep_foldl_min (pairs : List (String × ModelStats)) :
    ∀ (acc : String × Option ℚ) (q : ℚ), (pairs.foldl bestStep acc).2 = some q →
      ∀ p ∈ pairs, q ≤ p.2.recentErrors := by
  induction pairs with
  | nil => intro acc q _ p hp; simp at hp
  | cons p0 rest ih =>
    intro acc q hq p hp
    rw [List.foldl_cons] at hq
    rcases List.mem_cons.mp hp with rfl | hmem
    · have hacc1 : ∃ m1, (bestStep acc p).2 = some m1 ∧ m1 ≤ p.2.recentErrors := by
        cases hacc : acc.2 with
        | none => exact ⟨p.2.recentErrors, by simp [bestStep, hacc], le_refl _⟩
        | some m =>
          by_cases hlt : p.2.recentErrors < m
          · exact ⟨p.2.recentErrors, by simp [bestStep, hacc, hlt], le_refl _⟩
          · exact ⟨m, by simp [bestStep, hacc, hlt], le_of_not_lt hlt⟩
      obtain ⟨m1, hm1, hm1le⟩ := hacc1
      have := bestStep_foldl_mono rest (bestStep acc p) m1 hm1 q hq
      linarith
    · exact ih (bestStep acc p0) q hq p hmem

theorem bestStep_foldl_mem (pairs : List (String × ModelStats)) :
    ∀ acc : String × Option ℚ, pairs.foldl bestStep acc = acc ∨
      ∃ p ∈ pairs, (pairs.foldl bestStep acc).1 = p.1 ∧
        (pairs.foldl bestStep acc).2 = some p.2.recentErrors := by
  induction pairs with
  | nil => intro acc; left; rfl
  | cons p0 rest ih =>
    intro acc
    rw [List.foldl_cons]
    rcases ih (bestStep acc p0) with heq | ⟨p, hp, h1, h2⟩
    · rw [heq]
      cases hacc : acc.2 with
      | none =>
        right
        exact ⟨p0, List.mem_cons_self p0 rest, by simp [bestStep, hacc], by simp [bestStep, hacc]⟩
      | some m =>
        by_cases hlt : p0.2.recentErrors < m
        · right
          exact ⟨p0, List.mem_cons_self p0 rest, by simp [bestStep, hacc, hlt],
            by simp [bestStep, hacc, hlt]⟩
        · left
          simp [bestStep, hacc, hlt]
    · right
      exact ⟨p, List.mem_cons_of_mem p0 hp, h1, h2⟩

theorem findAvailable_available (r : ModelRotator) (now : ℚ) (m : String) (j : ℕ)
    (h : r.findAvailable now = some (m, j)) :
    ∃ s, mapGet r.stats m = some s ∧ s.isAvailable = true := by
  unfold ModelRotator.findAvailable at h
  obtain ⟨i, -, hf⟩ := List.exists_of_findSome?_eq_some h
  simp only at hf
  set model := r.modelList.getD ((r.currentIndex + i) % r.modelList.length) "" with hmodel
  cases hget : mapGet r.stats model with
  | none => rw [hget] at hf; simp at hf
  | some s =>
    rw [hget] at hf
    dsimp only at hf
    by_cases hcond : s.isAvailable = true ∧ now - s.lastRequestTime > 1000
    · rw [if_pos hcond] at hf
      obtain ⟨hm, -⟩ := Prod.mk.injEq .. ▸ Option.some.injEq .. ▸ hf
      exact ⟨s, hm ▸ hget, hcond.1⟩
    · rw [if_neg hcond] at hf
      exact absurd hf (by simp)

theorem modelA_ne_modelB : (modelA = modelB) = False := by
  simp [modelA, modelB]

theorem modelB_ne_modelA : (modelB = modelA) = False := by
  simp [modelA, modelB]

/-- C5 (counterexample): starting from three recorded failures
(`recentErrors = 3`, flag false), six recorded successes bring
`recentErrors` all the way down to 0, yet the availability flag is STILL
false: `recordResult(id, true)` reduces the count but never touches the
flag, so reaching 0 through successes does not restore availability — only
the decay tick does. -/
theorem modelRotator_success_no_restore_cex :
    (mapGet rotatorAfterSuccesses.stats modelA).map ModelStats.recentErrors = some 0 ∧
    (mapGet rotatorAfterSuccesses.stats modelA).map ModelStats.isAvailable = some false := by
  norm_num [rotatorAfterSuccesses, rotatorAfterFailures, sentimentModelRotator, mkModelRotator,
    ModelRotator.recordRequest, mapGet, mapSet, modelA_ne_modelB, modelB_ne_modelA]

/-- C5 (amended): calling `recordResult(id, true)` lowers the quarantined provider
recent-error count by 0.5 floored at 0 but leaves the availability flag
unchanged; the 60-second decay tick lowers the count of every provider by 1
floored at 0 and restores availability exactly when the decayed count
reaches 0; consequently a quarantined provider recovers after finitely many
decay ticks absent further errors (no permanent lockout), while successes
alone never flip the flag back to true. -/
theorem modelRotator_recovery_amended (r : ModelRotator) (model : String) (s : ModelStats)
    (now : ℚ) (h : mapGet r.stats model = some s) :
    (mapGet (r.recordRequest model true now).stats model =
      some ⟨s.requestCount + 1, now, max 0 (s.recentErrors - 1/2), s.isAvailable⟩) ∧
    (mapGet r.decayTick.stats model =
      some ⟨s.requestCount, s.lastRequestTime, max 0 (s.recentErrors - 1),
        if max 0 (s.recentErrors - 1) = 0 then true else s.isAvailable⟩) ∧
    (∀ n : ℕ, 1 ≤ n → s.recentErrors ≤ n →
      ∃ s1, mapGet ((ModelRotator.decayTick)^[n] r).stats model = some s1 ∧
        s1.recentErrors = 0 ∧ s1.isAvailable = true) :=
  ⟨recordRequest_success_stats r model now s h,
   decayTick_stats r model s h,
   fun n h1 hn => decayTick_iterate_recovers n r model s h h1 hn⟩

/-- Witness for the amended C5 theorem on the concrete quarantined state:
after the three failures, three decay ticks reach error count 0 and a true
availability flag. -/
theorem modelRotator_recovery_amended_witness :
    mapGet rotatorAfterFailures.stats modelA = some ⟨3, 0, 3, false⟩ ∧
    (mapGet (rotatorAfterFailures.recordRequest modelA true 0).stats modelA =
      some ⟨4, 0, max 0 (3 - 1/2), false⟩) ∧
    (∃ s1, mapGet ((ModelRotator.decayTick)^[3] rotatorAfterFailures).stats modelA = some s1 ∧
      s1.recentErrors = 0 ∧ s1.isAvailable = true) := by
  have hstats : mapGet rotatorAfterFailures.stats modelA = some ⟨3, 0, 3, false⟩ := by
    norm_num [rotatorAfterFailures, sentimentModelRotator, mkModelRotator,
      ModelRotator.recordRequest, mapGet, mapSet, modelA_ne_modelB, modelB_ne_modelA]
  refine ⟨hstats, ?_, ?_⟩
  · exact (modelRotator_recovery_amended rotatorAfterFailures modelA ⟨3, 0, 3, false⟩ 0 hstats).1
  · exact (modelRotator_recovery_amended rotatorAfterFailures modelA ⟨3, 0, 3, false⟩ 0
      hstats).2.2 3 (by norm_num) (by norm_num)

/-- C6 (counterexample): ONE decay tick after the 3 consecutive failures
leaves the provider at `recentErrors = 2` with the availability flag still
false, so the availability scan can never return it, and the least-errors
fallback returns the alternate both when the alternate is past its cooldown
(now = 2000) and when it is not (now = 0); likewise recorded successes alone
leave the flag false.  Hence "after enough successes or one decay tick, id
becomes selectable again" fails as stated. -/
theorem modelRotator_one_tick_cex :
    (mapGet rotatorAfterOneTick.stats modelA).map ModelStats.recentErrors = some 2 ∧
    (mapGet rotatorAfterOneTick.stats modelA).map ModelStats.isAvailable = some false ∧
    bestByErrors (rotatorAfterOneTick.modelList.getD 0 "") rotatorAfterOneTick.stats = modelB ∧
    rotatorAfterOneTick.getNextModel 2000 = modelB ∧
    rotatorAfterOneTick.getNextModel 0 = modelB ∧
    (mapGet rotatorAfterSuccesses.stats modelA).map ModelStats.isAvailable = some false := by
  norm_num [rotatorAfterOneTick, rotatorAfterSuccesses, rotatorAfterFailures,
    sentimentModelRotator, mkModelRotator, ModelRotator.recordRequest, ModelRotator.decayTick,
    ModelRotator.getNextModel, ModelRotator.findAvailable, bestByErrors, bestStep,
    mapGet, mapSet, List.range_succ, List.findSome?, modelA_ne_modelB, modelB_ne_modelA]

/-- C6 (amended): (1) quarantine — in every rotator state in which provider
`id` is flagged unavailable with at least 3 recent errors (the state after 3
consecutive recorded failures) and some other provider has fewer than 3
recent errors, `getNextModel` never returns `id`: the scan skips unavailable
providers, and the least-errors fallback always lands on a provider with
strictly fewer errors than `id`; (2) recovery — a single decay tick does not
make `id` selectable again (counterexample above); from the 3-failure state
it takes three decay ticks to restore the availability flag, after which
`getNextModel` returns `id` again (shown on the concrete sentiment
rotator). -/
theorem modelRotator_quarantine_amended :
    (∀ (r : ModelRotator) (now : ℚ) (id : String) (s : ModelStats),
      mapGet r.stats id = some s → s.isAvailable = false → 3 ≤ s.recentErrors →
      (r.stats.map Prod.fst).Nodup →
      (∃ p ∈ r.stats, p.1 ≠ id ∧ p.2.recentErrors < 3) →
      r.getNextModel now ≠ id) ∧
    (rotatorAfterThreeTicks.getNextModel 2000 = modelA ∧
      (mapGet rotatorAfterThreeTicks.stats modelA).map ModelStats.isAvailable = some true) := by
  constructor
  · rintro r now pid s hs hunavail hge hnodup ⟨palt, hmem, hne, hlt⟩
    unfold ModelRotator.getNextModel
    cases hfind : r.findAvailable now with
    | some mj =>
      obtain ⟨m, j⟩ := mj
      dsimp only
      intro heq
      obtain ⟨s1, hs1, havail⟩ := findAvailable_available r now m j hfind
      rw [heq, hs] at hs1
      obtain rfl : s = s1 := Option.some.injEq .. ▸ hs1
      rw [hunavail] at havail
      exact Bool.false_ne_true havail
    | none =>
      dsimp only
      intro heq
      unfold bestByErrors at heq
      have hnonempty : r.stats ≠ [] := List.ne_nil_of_mem hmem
      have hsome := bestStep_foldl_isSome r.stats (r.modelList.getD 0 "", none)
        (Or.inl hnonempty)
      obtain ⟨q, hq⟩ := Option.isSome_iff_exists.mp hsome
      have hmin := bestStep_foldl_min r.stats (r.modelList.getD 0 "", none) q hq palt hmem
      rcases bestStep_foldl_mem r.stats (r.modelList.getD 0 "", none) with hacc | ⟨p, hp, h1, h2⟩
      · rw [hacc] at hq
        simp at hq
      · obtain ⟨pk, pv⟩ := p
        dsimp only at h1 h2
        have hpid : pk = pid := by rw [← h1]; exact heq
        subst hpid
        have hget2 : mapGet r.stats pk = some pv :=
          mapGet_eq_of_mem_nodup r.stats pk pv hp hnodup
        rw [hs] at hget2
        obtain rfl : s = pv := Option.some.injEq .. ▸ hget2
        rw [hq] at h2
        have hq2 : q = s.recentErrors := Option.some.injEq .. ▸ h2
        rw [hq2] at hmin
        linarith
  · constructor
    · norm_num [rotatorAfterThreeTicks, rotatorAfterFailures, sentimentModelRotator,
        mkModelRotator, ModelRotator.recordRequest, ModelRotator.decayTick,
        ModelRotator.getNextModel, ModelRotator.findAvailable, mapGet, mapSet,
        List.range_succ, List.findSome?, modelA_ne_modelB, modelB_ne_modelA]
    · norm_num [rotatorAfterThreeTicks, rotatorAfterFailures, sentimentModelRotator,
        mkModelRotator, ModelRotator.recordRequest, ModelRotator.decayTick,
        mapGet, mapSet, modelA_ne_modelB, modelB_ne_modelA]

/-- Witness for the amended C6 theorem, discharging the quarantine
hypotheses on the concrete 3-failure state: the Claude model is unavailable
with 3 recent errors, Mistral has 0 < 3, and `getNextModel` does not return
the Claude model. -/
theorem modelRotator_quarantine_amended_witness :
    (mapGet rotatorAfterFailures.stats modelA = some ⟨3, 0, 3, false⟩ ∧
      (rotatorAfterFailures.stats.map Prod.fst).Nodup ∧
      (modelB, (⟨0, 0, 0, true⟩ : ModelStats)) ∈ rotatorAfterFailures.stats) ∧
    rotatorAfterFailures.getNextModel 5000 ≠ modelA := by
  have hlist : rotatorAfterFailures.stats =
      [(modelA, ⟨3, 0, 3, false⟩), (modelB, ⟨0, 0, 0, true⟩)] := by
    norm_num [rotatorAfterFailures, sentimentModelRotator, mkModelRotator,
      ModelRotator.recordRequest, mapGet, mapSet, modelA_ne_modelB, modelB_ne_modelA]
  have hstats : mapGet rotatorAfterFailures.stats modelA = some ⟨3, 0, 3, false⟩ := by
    rw [hlist]
    simp [mapGet]
  have hnodup : (rotatorAfterFailures.stats.map Prod.fst).Nodup := by
    rw [hlist]
    simp [modelA_ne_modelB]
  have hmem : (modelB, (⟨0, 0, 0, true⟩ : ModelStats)) ∈ rotatorAfterFailures.stats := by
    rw [hlist]
    simp
  refine ⟨⟨hstats, hnodup, hmem⟩, ?_⟩
  exact modelRotator_quarantine_amended.1 rotatorAfterFailures 5000 modelA ⟨3, 0, 3, false⟩
    hstats rfl (by norm_num) hnodup
    ⟨(modelB, ⟨0, 0, 0, true⟩), hmem, fun hh => (modelB_ne_modelA ▸ hh : False), by norm_num⟩
